import Mathlib

/-!
Verification of the ftmotion-extrusion-simulator motion-profile core.

The development shallowly embeds the numeric pipeline of the repository
(`src/trapezoidal.ts`, `src/smoothen.ts`, `src/profile.ts` and the compiled
`Poly6Profile` class shown in `README.md`) over the real numbers: JavaScript
floating-point arithmetic is modelled by exact real arithmetic, arrays by
`List ℝ`, and the `while (time <= totalTime) { ...; time += dt }` sampling
loop by mapping over `List.range` of the iteration count (for a positive
step `dt` the loop body runs `⌊totalTime/dt⌋ + 1` times when
`totalTime ≥ 0`, and zero times when `totalTime < 0`; for `dt ≤ 0` the
JavaScript loop would not terminate, which we model as an empty sample
list).
-/

namespace FtMotion

/-- Phase timings and the achieved nominal speed, as computed by
`trapezoidalProfile` (src/smoothen.ts, second part) and
`TrapezoidalProfile.generateProfile` (src/trapezoidal.ts); the identical
computation opens `Poly6Profile.generateProfile` (README.md). -/
structure Timings where
  T1 : ℝ
  T2 : ℝ
  T3 : ℝ
  nominal : ℝ

/-- `ldiff` of the timing computation: with `initial_speed = final_speed = 0`
the code computes `distance + 0.5 * invA * (0*0 + 0*0)`. -/
noncomputable def trapLdiff (distance acceleration : ℝ) : ℝ :=
  distance + 0.5 * (1 / acceleration) * (0 * 0 + 0 * 0)

/-- The cruise time before clamping: `ldiff / nominal_speed - invA * nominal_speed`
with `nominal_speed = rate`. -/
noncomputable def trapT2raw (distance rate acceleration : ℝ) : ℝ :=
  trapLdiff distance acceleration / rate - (1 / acceleration) * rate

/-- The achieved nominal speed: the requested rate, or
`sqrt(ldiff * acceleration)` when the raw cruise time is negative. -/
noncomputable def trapNominal (distance rate acceleration : ℝ) : ℝ :=
  if trapT2raw distance rate acceleration < 0 then
    Real.sqrt (trapLdiff distance acceleration * acceleration)
  else rate

/-- The trapezoid timing computation shared by both generators:
`T2 = ldiff/nominal - invA*nominal` clamped at `0` (with the nominal speed
recomputed in the clamped case), and
`T1 = (nominal - 0)*invA`, `T3 = (nominal - 0)*invA`. -/
noncomputable def trapTimings (distance rate acceleration : ℝ) : Timings :=
  { T1 := (trapNominal distance rate acceleration - 0) * (1 / acceleration)
    T2 := if trapT2raw distance rate acceleration < 0 then 0
          else trapT2raw distance rate acceleration
    T3 := (trapNominal distance rate acceleration - 0) * (1 / acceleration)
    nominal := trapNominal distance rate acceleration }

/-- The position law of the trapezoidal generator at elapsed time `t`
(src/smoothen.ts `trapezoidalProfile` loop body): accelerate for `t < T1`,
coast for `T1 ≤ t ≤ T1+T2`, decelerate afterwards. -/
noncomputable def trapPosAt (distance rate acceleration : ℝ) (t : ℝ) : ℝ :=
  let T := trapTimings distance rate acceleration
  if t < T.T1 then
    0 * t + 0.5 * acceleration * t * t
  else if t ≤ T.T1 + T.T2 then
    0.5 * (0 + T.nominal) * T.T1 + T.nominal * (t - T.T1)
  else
    let t_decel := t - (T.T1 + T.T2)
    (0.5 * (0 + T.nominal) * T.T1 + T.nominal * T.T2) + T.nominal * t_decel -
      0.5 * acceleration * t_decel * t_decel

/-- Number of iterations of `while (time <= totalTime) { ...; time += dt }`
starting at `time = 0`: in exact arithmetic the loop samples
`t = k*dt` for every natural `k` with `k*dt ≤ totalTime`. -/
noncomputable def sampleCount (totalTime dt : ℝ) : ℕ :=
  if 0 ≤ totalTime ∧ 0 < dt then Nat.floor (totalTime / dt) + 1 else 0

/-- `trapezoidalProfile` of src/smoothen.ts (second part): the sampled
position trace of the trapezoidal move. -/
noncomputable def trapezoidalProfile (distance rate acceleration dt : ℝ) : List ℝ :=
  let T := trapTimings distance rate acceleration
  (List.range (sampleCount (T.T1 + T.T2 + T.T3) dt)).map
    (fun (k : ℕ) => trapPosAt distance rate acceleration ((k : ℝ) * dt))

/-- `Kpp_mid` of `Poly6Profile.generateProfile` (README.md line 385):
the closed-form value of `K''(0.5)` written as
`6*0.5 - 36*0.25 + 60*0.125 - 30*0.0625`. -/
noncomputable def Kpp_mid : ℝ := 6 * 0.5 - 36 * 0.25 + 60 * 0.125 - 30 * 0.0625

/-- `Poly6Profile.s5_u` (README.md): the quintic baseline position law in the
normalized phase parameter `u`. -/
noncomputable def s5_u (s0 v0 Ts c3 c4 c5 u : ℝ) : ℝ :=
  s0 + v0 * Ts * u + c3 * (u * u * u) + c4 * (u * u * u * u) + c5 * (u * u * u * u * u)

/-- `Poly6Profile.s5pp_u` (README.md): second `u`-derivative of the quintic
part, `6*c3*u + 12*c4*u² + 20*c5*u³`. -/
noncomputable def s5pp_u (c3 c4 c5 u : ℝ) : ℝ :=
  6 * c3 * u + 12 * c4 * (u * u) + 20 * c5 * (u * u * u)

/-- `Poly6Profile.K_u` (README.md): the sixth-degree correction shape
`u³(1-u)³` (the `s0`, `v0`, `Ts` arguments are accepted and ignored exactly
as in the source). -/
noncomputable def K_u (s0 v0 Ts u : ℝ) : ℝ :=
  u * u * u * ((1 - u) * (1 - u) * (1 - u))

/-- Sextic coefficients for one phase. -/
structure Poly6Coeffs where
  c3 : ℝ
  c4 : ℝ
  c5 : ℝ
  c6 : ℝ

/-- The accel-phase coefficient block of `Poly6Profile.generateProfile`
(README.md): `Ts = T1`, boundary data `s0 = 0`, `v0 = 0`,
`s1 = pos_before_coast`, `v1 = nominal`, quintic coefficients from
`delta_p`/`delta_v`, and `c6 = Ts²(a_mid_target - a5_mid)/Kpp_mid` with
`a_mid_target = accOvershoot * acceleration`. -/
noncomputable def poly6AccelCoeffs (distance rate acceleration accOvershoot : ℝ) :
    Poly6Coeffs :=
  let T := trapTimings distance rate acceleration
  let Ts := T.T1
  let s0 : ℝ := 0
  let v0 : ℝ := 0
  let s1 := 0.5 * (0 + T.nominal) * T.T1
  let v1 := T.nominal
  let delta_p := s1 - s0 - v0 * Ts
  let delta_v := (v1 - v0) * Ts
  let c3 := 10 * delta_p - 4 * delta_v
  let c4 := -15 * delta_p + 7 * delta_v
  let c5 := 6 * delta_p - 3 * delta_v
  let a5_mid := s5pp_u c3 c4 c5 0.5 / (Ts * Ts)
  let a_mid_target := accOvershoot * acceleration
  { c3 := c3, c4 := c4, c5 := c5, c6 := Ts * Ts * (a_mid_target - a5_mid) / Kpp_mid }

/-- The decel-phase coefficient block of `Poly6Profile.generateProfile`
(README.md): `Ts = T3`, boundary data `s0 = pos_after_coast`, `v0 = nominal`,
`s1 = pos_after_coast + 0.5*(nominal + 0)*T3`, `v1 = 0`, and the negated
mid-phase target `a_mid_target = -accOvershoot * acceleration`. -/
noncomputable def poly6DecelCoeffs (distance rate acceleration accOvershoot : ℝ) :
    Poly6Coeffs :=
  let T := trapTimings distance rate acceleration
  let Ts := T.T3
  let pos_before_coast := 0.5 * (0 + T.nominal) * T.T1
  let pos_after_coast := pos_before_coast + T.nominal * T.T2
  let s0 := pos_after_coast
  let v0 := T.nominal
  let s1 := pos_after_coast + 0.5 * (T.nominal + 0) * T.T3
  let v1 : ℝ := 0
  let delta_p := s1 - s0 - v0 * Ts
  let delta_v := (v1 - v0) * Ts
  let c3 := 10 * delta_p - 4 * delta_v
  let c4 := -15 * delta_p + 7 * delta_v
  let c5 := 6 * delta_p - 3 * delta_v
  let a5_mid := s5pp_u c3 c4 c5 0.5 / (Ts * Ts)
  let a_mid_target := -accOvershoot * acceleration
  { c3 := c3, c4 := c4, c5 := c5, c6 := Ts * Ts * (a_mid_target - a5_mid) / Kpp_mid }

/-- The position law of `Poly6Profile.generateProfile` (README.md) at elapsed
time `t`: sextic law on the accel and decel phases, linear law on the coast. -/
noncomputable def poly6PosAt (distance rate acceleration accOvershoot : ℝ) (t : ℝ) : ℝ :=
  let T := trapTimings distance rate acceleration
  let pos_before_coast := 0.5 * (0 + T.nominal) * T.T1
  let pos_after_coast := pos_before_coast + T.nominal * T.T2
  let ca := poly6AccelCoeffs distance rate acceleration accOvershoot
  let cd := poly6DecelCoeffs distance rate acceleration accOvershoot
  if t < T.T1 then
    s5_u 0 0 T.T1 ca.c3 ca.c4 ca.c5 (t / T.T1) + ca.c6 * K_u 0 0 T.T1 (t / T.T1)
  else if t ≤ T.T1 + T.T2 then
    pos_before_coast + T.nominal * (t - T.T1)
  else
    let u := (t - (T.T1 + T.T2)) / T.T3
    s5_u pos_after_coast T.nominal T.T3 cd.c3 cd.c4 cd.c5 u +
      cd.c6 * K_u pos_after_coast T.nominal T.T3 u

/-- The sextic generator's sampled position trace. The function
`poly6Profile` imported by src/profile.ts is not among the repository's
files; its sampling loop is taken from the `Poly6Profile.generateProfile`
class body shown in README.md (without the class-only trailing-sample
repetition and internal differentiation, mirroring how the standalone
`trapezoidalProfile` function relates to the `TrapezoidalProfile` class). -/
noncomputable def poly6Profile (distance rate acceleration accOvershoot dt : ℝ) : List ℝ :=
  let T := trapTimings distance rate acceleration
  (List.range (sampleCount (T.T1 + T.T2 + T.T3) dt)).map
    (fun (k : ℕ) => poly6PosAt distance rate acceleration accOvershoot ((k : ℝ) * dt))

/-- `derivate` of src/profile.ts:
`arr.map((p, i) => (i === 0 ? 0 : (p - arr[i - 1]) / dt))`, written as a map
over the index range. -/
noncomputable def derivate (arr : List ℝ) (dt : ℝ) : List ℝ :=
  (List.range arr.length).map
    (fun i => if i = 0 then 0 else (arr.getD i 0 - arr.getD (i - 1) 0) / dt)

/-- One profile point of the class-based generator of src/trapezoidal.ts. -/
structure ProfilePoint where
  time : ℝ
  position : ℝ
  velocity : ℝ
  acceleration : ℝ

/-- The position array of `TrapezoidalProfile.generateProfile`
(src/trapezoidal.ts): the sampled positions at the fixed step
`dt = 0.001`, followed by three pushes of `positions.at(-1)` (the sampled
list is nonempty in every reachable case, so `at(-1)` is its last element). -/
noncomputable def trapClassPositions (distance rate acceleration : ℝ) : List ℝ :=
  let base := trapezoidalProfile distance rate acceleration 0.001
  base ++ List.replicate 3 (base.getLastD 0)

/-- The full profile of the class-based generator of src/trapezoidal.ts:
velocity and acceleration are backward differences of the prior sample
(`0` at index 0), and point `i` carries time `i * dt`. -/
noncomputable def trapClassProfile (distance rate acceleration : ℝ) : List ProfilePoint :=
  let dt : ℝ := 0.001
  let positions := trapClassPositions distance rate acceleration
  let velocities := derivate positions dt
  let accelerations := derivate velocities dt
  (List.range positions.length).map
    (fun (i : ℕ) =>
      { time := (i : ℝ) * dt
        position := positions.getD i 0
        velocity := velocities.getD i 0
        acceleration := accelerations.getD i 0 })

/-- One pass of the inner stage loop of `smoothen` (src/profile.ts):
starting from incoming value `x`, each stage's accumulator moves toward the
incoming value by fraction `alpha` and its new value is passed on; the
returned pair is the updated accumulator list and the final smoothed value. -/
def stagesUpdate (alpha x : ℝ) : List ℝ → List ℝ × ℝ
  | [] => ([], x)
  | s :: rest =>
      let s2 := s + (x - s) * alpha
      let r := stagesUpdate alpha s2 rest
      (s2 :: r.1, r.2)

/-- The outer per-sample loop of `smoothen` (src/profile.ts): threads the
accumulator list through the input values and collects the smoothed outputs. -/
def runFilter (alpha : ℝ) (st : List ℝ) : List ℝ → List ℝ
  | [] => []
  | v :: vs => (stagesUpdate alpha v st).2 :: runFilter alpha (stagesUpdate alpha v st).1 vs

/-- The state of one first-order low-pass stage driven by the input signal
`x`, starting from the zero accumulator: `y 0 = 0` and
`y (n+1) = y n + (x n - y n) * alpha`, the code's
`smoothing_pass[i] += (smooth_val - smoothing_pass[i]) * alpha`. -/
def lpState (alpha : ℝ) (x : ℕ → ℝ) : ℕ → ℝ
  | 0 => 0
  | n + 1 => lpState alpha x n + (x n - lpState alpha x n) * alpha

/-- Stage `j`'s accumulator over time when the cascade is driven by the
constant input `v`: stage `0` is driven by `v` itself, and stage `j+1` by
the value stage `j` takes immediately after its update within the same
sample (the sequential inner loop of `smoothen`). -/
def stageState (alpha v : ℝ) : ℕ → ℕ → ℝ
  | 0 => lpState alpha (fun _ => v)
  | j + 1 => lpState alpha (fun n => stageState alpha v j (n + 1))

/-- The value flowing into stage `j` while sample `n` is processed; for
`j = order` this is the cascade's output at sample `n`. -/
def stageIn (alpha v : ℝ) : ℕ → ℕ → ℝ
  | 0 => fun _ => v
  | j + 1 => fun n => stageState alpha v j (n + 1)

/-- The filter gain of `smoothen` (src/profile.ts): `0` unless
`s_time > 0.001`, else `1 - exp(-ts*order/s_time)`. -/
noncomputable def smoothAlpha (s_time ts : ℝ) (order : ℕ) : ℝ :=
  if 0.001 < s_time then 1 - Real.exp (-ts * order / s_time) else 0

/-- The delay-sample count of `smoothen` (src/profile.ts): `0` unless
`s_time > 0.001`, else `s_time * fs`. -/
noncomputable def smoothDelay (s_time fs : ℝ) : ℝ :=
  if 0.001 < s_time then s_time * fs else 0

/-- `smoothen` of src/profile.ts: when the gain is positive, pad the input
with `ceil(delay_samples * 2)` copies of its last value and run the
`order`-stage cascade from a zero accumulator state; otherwise return the
input unchanged. -/
noncomputable def smoothen (positions : List ℝ) (s_time ts fs : ℝ) (order : ℕ) : List ℝ :=
  if 0 < smoothAlpha s_time ts order then
    runFilter (smoothAlpha s_time ts order) (List.replicate order 0)
      (positions ++
        List.replicate (Nat.ceil (smoothDelay s_time fs * 2)) (positions.getLastD 0))
  else positions

/-- The filter gain of the `smoothen` variant exported by src/smoothen.ts
(first part): `1 - exp(-dt*order/s_time)` computed unconditionally, with no
`s_time > 0.001` guard. -/
noncomputable def variantAlpha (s_time dt : ℝ) (order : ℕ) : ℝ :=
  1 - Real.exp (-dt * order / s_time)

/-- `smoothen` of src/smoothen.ts (first part), the variant imported by the
plotter iteration embedded in README.md: no small-`s_time` guard; when the
gain is positive it pads the input with `Math.round(delay_samples)` copies
of its last value (modelled as `⌊delay_samples + 1/2⌋` for the nonnegative
delays of every call site), runs the cascade from a zero accumulator, and
trims the leading `delay_samples` outputs (`slice` truncates its fractional
argument, modelled as `⌊delay_samples⌋`). For `s_time > 0` the gain matches
the JavaScript value exactly; the `s_time = 0` call (where JavaScript's
division yields `-Infinity` and `alpha = 1`, an exact pointwise identity)
is outside this embedding's scope. -/
noncomputable def smoothenVariant (positions : List ℝ) (s_time dt fs : ℝ)
    (order : ℕ) : List ℝ :=
  if 0 < variantAlpha s_time dt order then
    List.drop (Nat.floor (s_time * fs))
      (runFilter (variantAlpha s_time dt order) (List.replicate order 0)
        (positions ++
          List.replicate (Nat.floor (s_time * fs + 1/2)) (positions.getLastD 0)))
  else positions

/-- Trajectory selector of `MotionParameters` (src/profile.ts). -/
inductive Trajectory
  | trapezoidal
  | poly6

/-- `MotionParameters` of src/profile.ts (second part). -/
structure MotionParameters where
  trajectory : Trajectory
  distance : ℝ
  rate : ℝ
  acceleration : ℝ
  accOvershoot : ℝ
  k : ℝ
  lineWidth : ℝ
  layerHeight : ℝ
  ftmFs : ℝ
  smoothingTime : ℝ

/-- `Profile` of src/profile.ts. -/
structure Profile where
  pos : List ℝ
  vel : List ℝ
  acc : List ℝ

/-- `FTM_SMOOTHING_ORDER` of src/profile.ts. -/
def FTM_SMOOTHING_ORDER : ℕ := 5

/-- `filamentArea` of src/profile.ts: `π * (1.75/2)²`. -/
noncomputable def filamentArea : ℝ := Real.pi * (1.75 / 2) ^ 2

/-- `calculateMotionProfile` of src/profile.ts (second part): select the
generator, convert travel to filament length, smooth the position trace and
derive velocity and acceleration by backward differences. -/
noncomputable def calculateMotionProfile (p : MotionParameters) : Profile :=
  let dt := 1 / p.ftmFs
  let posProfile :=
    match p.trajectory with
    | Trajectory.poly6 => poly6Profile p.distance p.rate p.acceleration p.accOvershoot dt
    | Trajectory.trapezoidal => trapezoidalProfile p.distance p.rate p.acceleration dt
  let mmFilamentPerMmTravel := p.lineWidth * p.layerHeight / filamentArea
  let scaled := posProfile.map (fun x => x * mmFilamentPerMmTravel)
  let pos := smoothen scaled p.smoothingTime dt p.ftmFs FTM_SMOOTHING_ORDER
  { pos := pos
    vel := derivate pos dt
    acc := derivate (derivate pos dt) dt }

/-- A concrete valid parameter record (the README's default-style move),
used by witnesses. -/
noncomputable def demoParams : MotionParameters :=
  { trajectory := Trajectory.trapezoidal
    distance := 10
    rate := 50
    acceleration := 500
    accOvershoot := 1
    k := 0.04
    lineWidth := 0.4
    layerHeight := 0.2
    ftmFs := 1000
    smoothingTime := 0 }

/-- A concrete parameter record violating the rate/acceleration contract
(negative acceleration), used by witnesses. -/
noncomputable def badParams : MotionParameters :=
  { trajectory := Trajectory.trapezoidal
    distance := 1
    rate := 1
    acceleration := -1
    accOvershoot := 1
    k := 0.04
    lineWidth := 0.4
    layerHeight := 0.2
    ftmFs := 1000
    smoothingTime := 0 }

end FtMotion

namespace FtMotion

/-- First derivative of `K(u) = u³(1-u)³`. -/
lemma K_hasDerivAt (s0 v0 Ts u : ℝ) :
    HasDerivAt (fun u => K_u s0 v0 Ts u)
      (3 * (u * u) * ((1 - u) * (1 - u) * (1 - u)) -
        u * u * u * (3 * ((1 - u) * (1 - u)))) u := by
  have h1 : HasDerivAt (fun u : ℝ => u * u * u) (3 * (u * u)) u := by
    have := hasDerivAt_pow 3 u
    have heq : (fun u : ℝ => u ^ 3) = fun u : ℝ => u * u * u := by
      funext x; ring
    rw [heq] at this
    convert this using 1
    push_cast
    ring
  have h2 : HasDerivAt (fun u : ℝ => (1 - u) * (1 - u) * (1 - u))
      (-(3 * ((1 - u) * (1 - u)))) u := by
    have hb : HasDerivAt (fun u : ℝ => 1 - u) (-1) u := by
      simpa using (hasDerivAt_id u).const_sub 1
    have := hb.pow 3
    have heq : (fun u : ℝ => (1 - u) ^ 3) = fun u : ℝ => (1 - u) * (1 - u) * (1 - u) := by
      funext x; ring
    rw [heq] at this
    convert this using 1
    push_cast
    ring
  have := h1.mul h2
  unfold K_u
  convert this using 1
  ring

/-- The derivative function of `K`. -/
lemma K_deriv (s0 v0 Ts : ℝ) :
    deriv (fun u => K_u s0 v0 Ts u) =
      fun u => 3 * (u * u) * ((1 - u) * (1 - u) * (1 - u)) -
        u * u * u * (3 * ((1 - u) * (1 - u))) := by
  funext u
  exact (K_hasDerivAt s0 v0 Ts u).deriv

/-- The second derivative of `K(u) = u³(1-u)³` at `u = 1/2` is `-3/8`. -/
lemma Kderiv2_half (s0 v0 Ts : ℝ) :
    deriv (deriv (fun u => K_u s0 v0 Ts u)) (1/2) = -(3/8) := by
  rw [K_deriv]
  set g : ℝ → ℝ := fun u => 3 * (u * u) * ((1 - u) * (1 - u) * (1 - u)) -
    u * u * u * (3 * ((1 - u) * (1 - u))) with hg
  have hpoly : g = fun u : ℝ => 3 * u ^ 2 - 12 * u ^ 3 + 15 * u ^ 4 - 6 * u ^ 5 := by
    funext u; simp only [g]; ring
  rw [hpoly]
  have h2 : HasDerivAt (fun u : ℝ => 3 * u ^ 2 - 12 * u ^ 3 + 15 * u ^ 4 - 6 * u ^ 5)
      (3 * (2 * (1/2 : ℝ) ^ 1) - 12 * (3 * (1/2 : ℝ) ^ 2) + 15 * (4 * (1/2 : ℝ) ^ 3) -
        6 * (5 * (1/2 : ℝ) ^ 4)) (1/2 : ℝ) := by
    have p2 := (hasDerivAt_pow 2 (1/2 : ℝ)).const_mul (3 : ℝ)
    have p3 := (hasDerivAt_pow 3 (1/2 : ℝ)).const_mul (12 : ℝ)
    have p4 := (hasDerivAt_pow 4 (1/2 : ℝ)).const_mul (15 : ℝ)
    have p5 := (hasDerivAt_pow 5 (1/2 : ℝ)).const_mul (6 : ℝ)
    have := ((p2.sub p3).add p4).sub p5
    convert this using 1
  rw [h2.deriv]
  norm_num

/-- The zero-boundary-speed correction collapses: `ldiff = distance`. -/
lemma trapLdiff_eq (d a : ℝ) : trapLdiff d a = d := by
  unfold trapLdiff; ring

/-- The raw (pre-clamp) cruise time, written as the claim writes it. -/
lemma trapT2raw_eq (d r a : ℝ) : trapT2raw d r a = d / r - r / a := by
  unfold trapT2raw trapLdiff; ring

/-- C1: with zero boundary speeds the timing computation solves
`T2 = distance/rate - rate/acceleration`; when that value is negative it is
clamped to exactly `0` and the nominal speed becomes `sqrt(distance*acceleration)`,
which is strictly below the requested rate; in every case
`T1 = T3 = nominal/acceleration ≥ 0`. -/
theorem claim_C1 (d r a : ℝ) (hd : 0 ≤ d) (hr : 0 < r) (ha : 0 < a) :
    (¬ d / r - r / a < 0 →
      (trapTimings d r a).T2 = d / r - r / a ∧ (trapTimings d r a).nominal = r) ∧
    (d / r - r / a < 0 →
      (trapTimings d r a).T2 = 0 ∧
      (trapTimings d r a).nominal = Real.sqrt (d * a) ∧
      (trapTimings d r a).nominal < r) ∧
    (trapTimings d r a).T1 = (trapTimings d r a).nominal / a ∧
    (trapTimings d r a).T3 = (trapTimings d r a).nominal / a ∧
    0 ≤ (trapTimings d r a).T1 ∧ 0 ≤ (trapTimings d r a).T3 := by
  have hraw := trapT2raw_eq d r a
  have hnn : 0 ≤ trapNominal d r a := by
    unfold trapNominal
    split
    · exact Real.sqrt_nonneg _
    · exact hr.le
  refine ⟨?_, ?_, ?_, ?_, ?_, ?_⟩
  · intro h
    have hc : ¬ trapT2raw d r a < 0 := by rw [hraw]; exact h
    constructor
    · show (if trapT2raw d r a < 0 then 0 else trapT2raw d r a) = d / r - r / a
      rw [if_neg hc, hraw]
    · show trapNominal d r a = r
      unfold trapNominal
      rw [if_neg hc]
  · intro h
    have hc : trapT2raw d r a < 0 := by rw [hraw]; exact h
    have hnom : trapNominal d r a = Real.sqrt (d * a) := by
      unfold trapNominal
      rw [if_pos hc, trapLdiff_eq]
    refine ⟨?_, hnom, ?_⟩
    · show (if trapT2raw d r a < 0 then 0 else trapT2raw d r a) = 0
      rw [if_pos hc]
    · show trapNominal d r a < r
      rw [hnom]
      have hda : d * a < r ^ 2 := by
        have h' : d / r < r / a := by linarith
        have := (div_lt_div_iff₀ hr ha).mp h'
        nlinarith
      calc Real.sqrt (d * a) < Real.sqrt (r ^ 2) :=
            Real.sqrt_lt_sqrt (by positivity) hda
        _ = r := Real.sqrt_sq hr.le
  · show (trapNominal d r a - 0) * (1 / a) = trapNominal d r a / a
    ring
  · show (trapNominal d r a - 0) * (1 / a) = trapNominal d r a / a
    ring
  · show 0 ≤ (trapNominal d r a - 0) * (1 / a)
    have : (0:ℝ) < 1 / a := by positivity
    nlinarith
  · show 0 ≤ (trapNominal d r a - 0) * (1 / a)
    have : (0:ℝ) < 1 / a := by positivity
    nlinarith

/-- Witness for C1 at `distance = 10`, `rate = 50`, `acceleration = 500`. -/
theorem claim_C1_witness :
    (0:ℝ) ≤ 10 ∧ (0:ℝ) < 50 ∧ (0:ℝ) < 500 ∧
    ((¬ (10:ℝ) / 50 - 50 / 500 < 0 →
      (trapTimings 10 50 500).T2 = 10 / 50 - 50 / 500 ∧ (trapTimings 10 50 500).nominal = 50) ∧
    ((10:ℝ) / 50 - 50 / 500 < 0 →
      (trapTimings 10 50 500).T2 = 0 ∧
      (trapTimings 10 50 500).nominal = Real.sqrt (10 * 500) ∧
      (trapTimings 10 50 500).nominal < 50) ∧
    (trapTimings 10 50 500).T1 = (trapTimings 10 50 500).nominal / 500 ∧
    (trapTimings 10 50 500).T3 = (trapTimings 10 50 500).nominal / 500 ∧
    0 ≤ (trapTimings 10 50 500).T1 ∧ 0 ≤ (trapTimings 10 50 500).T3) :=
  ⟨by norm_num, by norm_num, by norm_num,
    claim_C1 10 50 500 (by norm_num) (by norm_num) (by norm_num)⟩

/-- The accel-phase `c6` as the code computes it. -/
lemma poly6AccelCoeffs_c6 (d r a ov : ℝ) :
    (poly6AccelCoeffs d r a ov).c6 =
      (trapTimings d r a).T1 * (trapTimings d r a).T1 *
        (ov * a -
          s5pp_u (poly6AccelCoeffs d r a ov).c3 (poly6AccelCoeffs d r a ov).c4
            (poly6AccelCoeffs d r a ov).c5 0.5 /
            ((trapTimings d r a).T1 * (trapTimings d r a).T1)) / Kpp_mid := rfl

/-- The decel-phase `c6` as the code computes it (negated target). -/
lemma poly6DecelCoeffs_c6 (d r a ov : ℝ) :
    (poly6DecelCoeffs d r a ov).c6 =
      (trapTimings d r a).T3 * (trapTimings d r a).T3 *
        (-ov * a -
          s5pp_u (poly6DecelCoeffs d r a ov).c3 (poly6DecelCoeffs d r a ov).c4
            (poly6DecelCoeffs d r a ov).c5 0.5 /
            ((trapTimings d r a).T3 * (trapTimings d r a).T3)) / Kpp_mid := rfl

/-- C2: for a move with `T1 > 0` and `T3 > 0` the correction coefficient
`c6 = Ts²(a_mid_target - a5_mid)/Kpp_mid` makes the total mid-phase
normalized acceleration `(s5''(0.5) + c6·K''(0.5))/Ts²` of the accel phase
exactly `accOvershoot * acceleration`, and of the decel phase exactly
`-(accOvershoot * acceleration)` (here `K''(0.5)` is the true second
derivative of the code's `K_u` at `0.5`, which coincides with the code's
`Kpp_mid` constant). -/
theorem claim_C2 (d r a ov : ℝ)
    (h1 : 0 < (trapTimings d r a).T1) (h3 : 0 < (trapTimings d r a).T3) :
    (s5pp_u (poly6AccelCoeffs d r a ov).c3 (poly6AccelCoeffs d r a ov).c4
        (poly6AccelCoeffs d r a ov).c5 0.5 +
      (poly6AccelCoeffs d r a ov).c6 *
        deriv (deriv (fun u => K_u 0 0 (trapTimings d r a).T1 u)) 0.5) /
      ((trapTimings d r a).T1 * (trapTimings d r a).T1) = ov * a ∧
    (s5pp_u (poly6DecelCoeffs d r a ov).c3 (poly6DecelCoeffs d r a ov).c4
        (poly6DecelCoeffs d r a ov).c5 0.5 +
      (poly6DecelCoeffs d r a ov).c6 *
        deriv (deriv (fun u =>
          K_u (0.5 * (0 + (trapTimings d r a).nominal) * (trapTimings d r a).T1 +
              (trapTimings d r a).nominal * (trapTimings d r a).T2)
            (trapTimings d r a).nominal (trapTimings d r a).T3 u)) 0.5) /
      ((trapTimings d r a).T3 * (trapTimings d r a).T3) = -(ov * a) := by
  have h05 : (0.5 : ℝ) = 1/2 := by norm_num
  have hK : Kpp_mid = -(3/8) := by unfold Kpp_mid; norm_num
  constructor
  · have hne : (trapTimings d r a).T1 ≠ 0 := ne_of_gt h1
    rw [h05, Kderiv2_half, poly6AccelCoeffs_c6, hK]
    field_simp
    ring_nf
  · have hne : (trapTimings d r a).T3 ≠ 0 := ne_of_gt h3
    rw [h05, Kderiv2_half, poly6DecelCoeffs_c6, hK]
    field_simp
    ring_nf

/-- The demo move has strictly positive accel and decel durations. -/
lemma demoTimings_pos :
    0 < (trapTimings 10 50 500).T1 ∧ 0 < (trapTimings 10 50 500).T3 := by
  have hraw : trapT2raw 10 50 500 = 1/10 := by rw [trapT2raw_eq]; norm_num
  have hc : ¬ trapT2raw 10 50 500 < 0 := by rw [hraw]; norm_num
  have hnom : trapNominal 10 50 500 = 50 := by
    unfold trapNominal
    rw [if_neg hc]
  constructor
  · show 0 < (trapNominal 10 50 500 - 0) * (1 / 500)
    rw [hnom]; norm_num
  · show 0 < (trapNominal 10 50 500 - 0) * (1 / 500)
    rw [hnom]; norm_num

/-- Witness for C2 at `distance = 10`, `rate = 50`, `acceleration = 500`,
`accOvershoot = 1`. -/
theorem claim_C2_witness :
    0 < (trapTimings 10 50 500).T1 ∧ 0 < (trapTimings 10 50 500).T3 ∧
    ((s5pp_u (poly6AccelCoeffs 10 50 500 1).c3 (poly6AccelCoeffs 10 50 500 1).c4
        (poly6AccelCoeffs 10 50 500 1).c5 0.5 +
      (poly6AccelCoeffs 10 50 500 1).c6 *
        deriv (deriv (fun u => K_u 0 0 (trapTimings 10 50 500).T1 u)) 0.5) /
      ((trapTimings 10 50 500).T1 * (trapTimings 10 50 500).T1) = 1 * 500 ∧
    (s5pp_u (poly6DecelCoeffs 10 50 500 1).c3 (poly6DecelCoeffs 10 50 500 1).c4
        (poly6DecelCoeffs 10 50 500 1).c5 0.5 +
      (poly6DecelCoeffs 10 50 500 1).c6 *
        deriv (deriv (fun u =>
          K_u (0.5 * (0 + (trapTimings 10 50 500).nominal) * (trapTimings 10 50 500).T1 +
              (trapTimings 10 50 500).nominal * (trapTimings 10 50 500).T2)
            (trapTimings 10 50 500).nominal (trapTimings 10 50 500).T3 u)) 0.5) /
      ((trapTimings 10 50 500).T3 * (trapTimings 10 50 500).T3) = -(1 * 500)) :=
  ⟨demoTimings_pos.1, demoTimings_pos.2,
    claim_C2 10 50 500 1 demoTimings_pos.1 demoTimings_pos.2⟩

/-- C3 counterexample: the constant actually written in the code,
`6*0.5 - 36*0.25 + 60*0.125 - 30*0.0625`, is `-0.375`, not `1.875`. -/
theorem claim_C3_counterexample : Kpp_mid = -0.375 ∧ Kpp_mid ≠ 1.875 := by
  unfold Kpp_mid
  norm_num

/-- C3 (amended): the constant `Kpp_mid = 6*0.5 - 36*0.25 + 60*0.125 - 30*0.0625`
equals `-0.375`, and this is the true second derivative of
`K(u) = u³(1-u)³` at `u = 0.5` (the code comment's value `1.875` is wrong,
but the code's constant is the correct `K''(0.5)`). -/
theorem claim_C3 (s0 v0 Ts : ℝ) :
    Kpp_mid = -0.375 ∧ deriv (deriv (fun u => K_u s0 v0 Ts u)) (1/2) = Kpp_mid := by
  constructor
  · unfold Kpp_mid; norm_num
  · rw [Kderiv2_half s0 v0 Ts]
    unfold Kpp_mid; norm_num

/-- C4 counterexample: at `distance = 10`, `rate = 50`, `acceleration = 500`
the cruise time is `T2 = 0.1 s`, not approximately `0`: the move is a genuine
trapezoid with a 5 mm cruise phase, not near-triangular. -/
theorem claim_C4_counterexample :
    (trapTimings 10 50 500).T2 = 0.1 ∧ (0.1 : ℝ) ≠ 0 := by
  have hraw : trapT2raw 10 50 500 = 1/10 := by rw [trapT2raw_eq]; norm_num
  have hc : ¬ trapT2raw 10 50 500 < 0 := by rw [hraw]; norm_num
  constructor
  · show (if trapT2raw 10 50 500 < 0 then 0 else trapT2raw 10 50 500) = 0.1
    rw [if_neg hc, hraw]
    norm_num
  · norm_num

/-- `derivate` preserves the length of its input. -/
lemma derivate_length (arr : List ℝ) (dt : ℝ) :
    (derivate arr dt).length = arr.length := by
  simp [derivate]

/-- Element formula of `derivate` at an in-range index. -/
lemma derivate_getD (arr : List ℝ) (dt : ℝ) {i : ℕ} (h : i < arr.length) :
    (derivate arr dt).getD i 0 =
      if i = 0 then 0 else (arr.getD i 0 - arr.getD (i - 1) 0) / dt := by
  unfold derivate
  rw [List.getD_eq_getElem _ 0 (by simpa using h)]
  simp

/-- The achieved nominal speed is never negative (positive rate). -/
lemma trapNominal_nonneg (d r a : ℝ) (hr : 0 < r) : 0 ≤ trapNominal d r a := by
  unfold trapNominal
  split
  · exact Real.sqrt_nonneg _
  · exact hr.le

/-- All three phase durations are nonnegative for valid parameters. -/
lemma trapTimings_nonneg (d r a : ℝ) (hr : 0 < r) (ha : 0 < a) :
    0 ≤ (trapTimings d r a).T1 ∧ 0 ≤ (trapTimings d r a).T2 ∧
    0 ≤ (trapTimings d r a).T3 := by
  have hnn := trapNominal_nonneg d r a hr
  have hinv : (0:ℝ) < 1 / a := by positivity
  refine ⟨?_, ?_, ?_⟩
  · show 0 ≤ (trapNominal d r a - 0) * (1 / a)
    nlinarith
  · show 0 ≤ (if trapT2raw d r a < 0 then 0 else trapT2raw d r a)
    split
    · exact le_refl 0
    · linarith [not_lt.mp (by assumption : ¬ trapT2raw d r a < 0)]
  · show 0 ≤ (trapNominal d r a - 0) * (1 / a)
    nlinarith

/-- At zero distance the timing computation degenerates completely. -/
lemma trapTimings_zero (r a : ℝ) (hr : 0 < r) (ha : 0 < a) :
    (trapTimings 0 r a).T1 = 0 ∧ (trapTimings 0 r a).T2 = 0 ∧
    (trapTimings 0 r a).T3 = 0 ∧ (trapTimings 0 r a).nominal = 0 := by
  have hc : trapT2raw 0 r a < 0 := by
    rw [trapT2raw_eq]
    have hra : 0 < r / a := by positivity
    have : (0:ℝ) / r = 0 := by simp
    rw [this]
    linarith
  have hnom : trapNominal 0 r a = 0 := by
    unfold trapNominal
    rw [if_pos hc, trapLdiff_eq]
    simp
  refine ⟨?_, ?_, ?_, hnom⟩
  · show (trapNominal 0 r a - 0) * (1 / a) = 0
    rw [hnom]; ring
  · show (if trapT2raw 0 r a < 0 then 0 else trapT2raw 0 r a) = 0
    rw [if_pos hc]
  · show (trapNominal 0 r a - 0) * (1 / a) = 0
    rw [hnom]; ring

/-- The zero-distance move samples exactly one position, `0`. -/
lemma trapezoidalProfile_zero (r a dt : ℝ) (hr : 0 < r) (ha : 0 < a) (hdt : 0 < dt) :
    trapezoidalProfile 0 r a dt = [0] := by
  obtain ⟨h1, h2, h3, hnom⟩ := trapTimings_zero r a hr ha
  have hcount : sampleCount ((trapTimings 0 r a).T1 + (trapTimings 0 r a).T2 +
      (trapTimings 0 r a).T3) dt = 1 := by
    rw [h1, h2, h3]
    unfold sampleCount
    rw [if_pos ⟨by norm_num, hdt⟩]
    norm_num
  have hpos : trapPosAt 0 r a ((0:ℕ) * dt) = 0 := by
    have hz : ((0:ℕ) : ℝ) * dt = 0 := by simp
    rw [hz]
    unfold trapPosAt
    rw [if_neg (by rw [h1]; exact lt_irrefl 0), if_pos (by rw [h1, h2]; norm_num)]
    rw [h1, hnom]
    ring
  show (List.range (sampleCount ((trapTimings 0 r a).T1 + (trapTimings 0 r a).T2 +
      (trapTimings 0 r a).T3) dt)).map
      (fun (k : ℕ) => trapPosAt 0 r a ((k : ℝ) * dt)) = [0]
  rw [hcount]
  simp only [List.range_succ, List.range_zero, List.nil_append, List.map_cons,
    List.map_nil]
  rw [hpos]

/-- The sampled trace has `sampleCount` entries. -/
lemma trapezoidalProfile_length (d r a dt : ℝ) :
    (trapezoidalProfile d r a dt).length =
      sampleCount ((trapTimings d r a).T1 + (trapTimings d r a).T2 +
        (trapTimings d r a).T3) dt := by
  unfold trapezoidalProfile
  simp

/-- The sampled trapezoidal trace is nonempty for valid parameters. -/
lemma trapezoidalProfile_ne_nil (d r a dt : ℝ) (hd : 0 ≤ d) (hr : 0 < r)
    (ha : 0 < a) (hdt : 0 < dt) : trapezoidalProfile d r a dt ≠ [] := by
  obtain ⟨g1, g2, g3⟩ := trapTimings_nonneg d r a hr ha
  have htot : 0 ≤ (trapTimings d r a).T1 + (trapTimings d r a).T2 +
      (trapTimings d r a).T3 := by linarith
  have hlen := trapezoidalProfile_length d r a dt
  intro hcon
  rw [hcon] at hlen
  unfold sampleCount at hlen
  rw [if_pos ⟨htot, hdt⟩] at hlen
  simp at hlen

/-- C10: for `distance ≥ 0`, `rate > 0`, `acceleration > 0` and a positive
sampling step the position loop runs at least once, so the sampled position
array is nonempty and its last element (`positions.at(-1)`, used for
trailing-sample repetition and for the smoothing filter's tail padding) is
defined. -/
theorem claim_C10 (d r a dt : ℝ) (hd : 0 ≤ d) (hr : 0 < r) (ha : 0 < a)
    (hdt : 0 < dt) :
    trapezoidalProfile d r a dt ≠ [] ∧
    (trapezoidalProfile d r a dt).getLast?.isSome = true := by
  have hne := trapezoidalProfile_ne_nil d r a dt hd hr ha hdt
  exact ⟨hne, List.getLast?_isSome.mpr hne⟩

/-- Witness for C10 at `distance = 10`, `rate = 50`, `acceleration = 500`,
`dt = 0.001`. -/
theorem claim_C10_witness :
    (0:ℝ) ≤ 10 ∧ (0:ℝ) < 50 ∧ (0:ℝ) < 500 ∧ (0:ℝ) < 1/1000 ∧
    (trapezoidalProfile 10 50 500 (1/1000) ≠ [] ∧
      (trapezoidalProfile 10 50 500 (1/1000)).getLast?.isSome = true) :=
  ⟨by norm_num, by norm_num, by norm_num, by norm_num,
    claim_C10 10 50 500 (1/1000) (by norm_num) (by norm_num) (by norm_num)
      (by norm_num)⟩

/-- The src/smoothen.ts variant is not the identity at
`smoothingTime = 0.001`: on the one-sample input `[1]` with `dt = 0.001`,
`fs = 1000`, `order = 1` its gain is `1 - exp(-1) > 0`, it pads one copy,
filters, trims one leading output, and returns `[1 - exp(-1)²] ≠ [1]`. -/
lemma smoothenVariant_not_identity :
    smoothenVariant [1] 0.001 0.001 1000 1 ≠ [1] := by
  have he0 : 0 < Real.exp (-1:ℝ) := Real.exp_pos _
  have he1 : Real.exp (-1:ℝ) < 1 := Real.exp_lt_one_iff.mpr (by norm_num)
  have hαval : variantAlpha 0.001 0.001 1 = 1 - Real.exp (-1) := by
    unfold variantAlpha
    norm_num
  have hcond : 0 < variantAlpha 0.001 0.001 1 := by
    rw [hαval]; linarith
  have hf1 : Nat.floor ((0.001:ℝ) * 1000 + 1/2) = 1 := by
    have h32 : (0.001:ℝ) * 1000 + 1/2 = 3/2 := by norm_num
    rw [h32, Nat.floor_eq_iff (by norm_num : (0:ℝ) ≤ 3/2)]
    norm_num
  have hf2 : Nat.floor ((0.001:ℝ) * 1000) = 1 := by
    have h1 : (0.001:ℝ) * 1000 = 1 := by norm_num
    rw [h1, Nat.floor_one]
  have hlast : ([1] : List ℝ).getLastD 0 = 1 := rfl
  unfold smoothenVariant
  rw [if_pos hcond, hαval, hf1, hf2, hlast]
  have hrun : runFilter (1 - Real.exp (-1)) (List.replicate 1 (0:ℝ))
      ([1] ++ List.replicate 1 (1:ℝ)) =
      [0 + (1 - 0) * (1 - Real.exp (-1)),
        (0 + (1 - 0) * (1 - Real.exp (-1))) +
          (1 - (0 + (1 - 0) * (1 - Real.exp (-1)))) * (1 - Real.exp (-1))] := rfl
  rw [hrun]
  intro hcon
  have hB : (0 + (1 - 0) * (1 - Real.exp (-1))) +
      (1 - (0 + (1 - 0) * (1 - Real.exp (-1)))) * (1 - Real.exp (-1)) = 1 := by
    have := congrArg (fun l => l.getD 0 0) hcon
    simpa using this
  have he2 : 0 < Real.exp (-1:ℝ) * Real.exp (-1:ℝ) := mul_pos he0 he0
  nlinarith [hB, he2]

/-- C6 (amended): the smoothing filter invoked by the pipeline
(`smoothen` of src/profile.ts) is the identity whenever
`smoothingTime ≤ 0.001` — gain `0`, no padding, no filtering, input returned
unchanged; but the `smoothen` variant of src/smoothen.ts (imported by the
plotter iteration embedded in README.md) lacks the guard and, for
`0 < smoothingTime ≤ 0.001`, pads, filters and trims, so it is not the
identity. -/
theorem claim_C6 (positions : List ℝ) (s_time ts fs : ℝ) (order : ℕ)
    (h : s_time ≤ 0.001) :
    smoothen positions s_time ts fs order = positions ∧
    smoothenVariant [1] 0.001 0.001 1000 1 ≠ [1] := by
  have hα : smoothAlpha s_time ts order = 0 := by
    unfold smoothAlpha
    rw [if_neg (not_lt.mpr h)]
  constructor
  · unfold smoothen
    rw [hα]
    simp
  · exact smoothenVariant_not_identity

/-- C6 counterexample: `smoothingTime = 0.001` is within the claim's
"at most about 1 ms" premise, yet the src/smoothen.ts filter maps `[1]`
to a sequence different from `[1]` (it pads, filters and trims), so that
cited implementation is not the identity there. -/
theorem claim_C6_counterexample :
    (0:ℝ) < 0.001 ∧ (0.001:ℝ) ≤ 0.001 ∧
    smoothenVariant [1] 0.001 0.001 1000 1 ≠ [1] :=
  ⟨by norm_num, by norm_num, smoothenVariant_not_identity⟩

/-- Witness for C6 on the sequence `[1, 2, 3]` with `smoothingTime = 0`. -/
theorem claim_C6_witness :
    (0:ℝ) ≤ 0.001 ∧
    (smoothen [1, 2, 3] 0 (1/1000) 1000 5 = [1, 2, 3] ∧
      smoothenVariant [1] 0.001 0.001 1000 1 ≠ [1]) :=
  ⟨by norm_num, claim_C6 [1, 2, 3] 0 (1/1000) 1000 5 (by norm_num)⟩

/-- The velocity trace is the backward difference of the position trace. -/
lemma calculateMotionProfile_vel (p : MotionParameters) :
    (calculateMotionProfile p).vel =
      derivate (calculateMotionProfile p).pos (1 / p.ftmFs) := rfl

/-- The acceleration trace is the backward difference of the velocity trace. -/
lemma calculateMotionProfile_acc (p : MotionParameters) :
    (calculateMotionProfile p).acc =
      derivate (calculateMotionProfile p).vel (1 / p.ftmFs) := rfl

/-- C9: the assembled Profile has three equal-length traces; velocity is the
backward difference of position (with `vel[0] = 0`) and acceleration the
backward difference of velocity (with `acc[0] = 0`), at timestep
`dt = 1/sampleRate`. -/
theorem claim_C9 (p : MotionParameters) (hfs : 0 < p.ftmFs) :
    (calculateMotionProfile p).vel.length = (calculateMotionProfile p).pos.length ∧
    (calculateMotionProfile p).acc.length = (calculateMotionProfile p).pos.length ∧
    (∀ i, i < (calculateMotionProfile p).pos.length →
      (calculateMotionProfile p).vel.getD i 0 =
        if i = 0 then 0 else
          ((calculateMotionProfile p).pos.getD i 0 -
            (calculateMotionProfile p).pos.getD (i - 1) 0) / (1 / p.ftmFs)) ∧
    (∀ i, i < (calculateMotionProfile p).pos.length →
      (calculateMotionProfile p).acc.getD i 0 =
        if i = 0 then 0 else
          ((calculateMotionProfile p).vel.getD i 0 -
            (calculateMotionProfile p).vel.getD (i - 1) 0) / (1 / p.ftmFs)) := by
  have hv := calculateMotionProfile_vel p
  have hacc := calculateMotionProfile_acc p
  refine ⟨by rw [hv, derivate_length], by rw [hacc, derivate_length, hv, derivate_length],
    ?_, ?_⟩
  · intro i hi
    rw [hv, derivate_getD _ _ hi]
  · intro i hi
    rw [hacc]
    apply derivate_getD
    rw [hv, derivate_length]
    exact hi

/-- Witness for C9 at the concrete valid parameter record `demoParams`. -/
theorem claim_C9_witness :
    (0:ℝ) < demoParams.ftmFs ∧
    ((calculateMotionProfile demoParams).vel.length =
        (calculateMotionProfile demoParams).pos.length ∧
    (calculateMotionProfile demoParams).acc.length =
        (calculateMotionProfile demoParams).pos.length ∧
    (∀ i, i < (calculateMotionProfile demoParams).pos.length →
      (calculateMotionProfile demoParams).vel.getD i 0 =
        if i = 0 then 0 else
          ((calculateMotionProfile demoParams).pos.getD i 0 -
            (calculateMotionProfile demoParams).pos.getD (i - 1) 0) /
              (1 / demoParams.ftmFs)) ∧
    (∀ i, i < (calculateMotionProfile demoParams).pos.length →
      (calculateMotionProfile demoParams).acc.getD i 0 =
        if i = 0 then 0 else
          ((calculateMotionProfile demoParams).vel.getD i 0 -
            (calculateMotionProfile demoParams).vel.getD (i - 1) 0) /
              (1 / demoParams.ftmFs))) :=
  ⟨by norm_num [demoParams], claim_C9 demoParams (by norm_num [demoParams])⟩

/-- C8 counterexample: with `distance = 1`, `rate = 1` and the invalid
`acceleration = -1` the trapezoidal generator is not rejected: it runs and
returns the one-sample output `[1/2]`, so output is produced where the
claim demands an `InvalidParameter` rejection before any generator runs
(the code contains no validation and no error path at all). -/
theorem claim_C8_counterexample :
    trapezoidalProfile 1 1 (-1) (1/1000) = [1/2] := by
  have hraw : trapT2raw 1 1 (-1) = 2 := by rw [trapT2raw_eq]; norm_num
  have hc : ¬ trapT2raw 1 1 (-1) < 0 := by rw [hraw]; norm_num
  have hnom : trapNominal 1 1 (-1) = 1 := by
    unfold trapNominal
    rw [if_neg hc]
  have h1 : (trapTimings 1 1 (-1)).T1 = -1 := by
    show (trapNominal 1 1 (-1) - 0) * (1 / (-1)) = -1
    rw [hnom]; norm_num
  have h2 : (trapTimings 1 1 (-1)).T2 = 2 := by
    show (if trapT2raw 1 1 (-1) < 0 then 0 else trapT2raw 1 1 (-1)) = 2
    rw [if_neg hc, hraw]
  have h3 : (trapTimings 1 1 (-1)).T3 = -1 := by
    show (trapNominal 1 1 (-1) - 0) * (1 / (-1)) = -1
    rw [hnom]; norm_num
  have hcount : sampleCount ((trapTimings 1 1 (-1)).T1 + (trapTimings 1 1 (-1)).T2 +
      (trapTimings 1 1 (-1)).T3) (1/1000) = 1 := by
    rw [h1, h2, h3]
    unfold sampleCount
    rw [if_pos ⟨by norm_num, by norm_num⟩]
    norm_num
  have hpos : trapPosAt 1 1 (-1) ((0:ℕ) * (1/1000)) = 1/2 := by
    have hz : ((0:ℕ) : ℝ) * (1/1000) = 0 := by norm_num
    have hn : (trapTimings 1 1 (-1)).nominal = 1 := hnom
    unfold trapPosAt
    rw [hz, if_neg (by rw [h1]; norm_num), if_pos (by rw [h1, h2]; norm_num)]
    rw [hn, h1]
    norm_num
  show (List.range (sampleCount ((trapTimings 1 1 (-1)).T1 + (trapTimings 1 1 (-1)).T2 +
      (trapTimings 1 1 (-1)).T3) (1/1000))).map
      (fun (k : ℕ) => trapPosAt 1 1 (-1) ((k : ℝ) * (1/1000))) = [1/2]
  rw [hcount]
  simp only [List.range_succ, List.range_zero, List.nil_append, List.map_cons,
    List.map_nil]
  rw [hpos]

/-- C8 (amended): invalid parameters are not rejected — the code contains no
validation and defines no `InvalidParameter` error; even with non-positive
acceleration or rate the pipeline runs to completion and produces a full
Profile (three traces of equal length). -/
theorem claim_C8 (p : MotionParameters)
    (h : p.acceleration ≤ 0 ∨ p.rate ≤ 0) :
    (calculateMotionProfile p).vel.length = (calculateMotionProfile p).pos.length ∧
    (calculateMotionProfile p).acc.length = (calculateMotionProfile p).pos.length := by
  have hv := calculateMotionProfile_vel p
  have hacc := calculateMotionProfile_acc p
  exact ⟨by rw [hv, derivate_length],
    by rw [hacc, derivate_length, hv, derivate_length]⟩

/-- Witness for C8 at the invalid parameter record `badParams`
(`acceleration = -1`). -/
theorem claim_C8_witness :
    (badParams.acceleration ≤ 0 ∨ badParams.rate ≤ 0) ∧
    ((calculateMotionProfile badParams).vel.length =
        (calculateMotionProfile badParams).pos.length ∧
      (calculateMotionProfile badParams).acc.length =
        (calculateMotionProfile badParams).pos.length) :=
  ⟨Or.inl (by norm_num [badParams]),
    claim_C8 badParams (Or.inl (by norm_num [badParams]))⟩

/-- `getD` out of a constant-zero list is `0` at every index. -/
lemma getD_replicate_zero (n i : ℕ) : (List.replicate n (0:ℝ)).getD i 0 = 0 := by
  rcases lt_or_ge i n with h | h
  · rw [List.getD_eq_getElem _ _ (by simpa using h)]
    simp
  · rw [List.getD_eq_default _ _ (by simpa using h)]

/-- Backward-differencing a constant-zero list yields a constant-zero list. -/
lemma derivate_replicate_zero (n : ℕ) (dt : ℝ) :
    derivate (List.replicate n (0:ℝ)) dt = List.replicate n 0 := by
  unfold derivate
  rw [List.length_replicate]
  apply List.ext_getElem
  · simp
  · intro i h1 h2
    simp only [List.getElem_map, List.getElem_range, List.getElem_replicate]
    rw [getD_replicate_zero, getD_replicate_zero]
    simp

/-- At distance `0` the class-based generator's position array is four zero
samples: the single sampled position plus three trailing repeats. -/
lemma trapClassPositions_zero (r a : ℝ) (hr : 0 < r) (ha : 0 < a) :
    trapClassPositions 0 r a = List.replicate 4 0 := by
  have hbase : trapezoidalProfile 0 r a 0.001 = [0] :=
    trapezoidalProfile_zero r a 0.001 hr ha (by norm_num)
  show trapezoidalProfile 0 r a 0.001 ++
      List.replicate 3 ((trapezoidalProfile 0 r a 0.001).getLastD 0) =
      List.replicate 4 0
  rw [hbase]
  rfl

/-- The class-based profile has one point per position sample. -/
lemma trapClassProfile_length (d r a : ℝ) :
    (trapClassProfile d r a).length = (trapClassPositions d r a).length := by
  unfold trapClassProfile
  simp

/-- C5 counterexample: at `distance = 0` the class-based generator of
src/trapezoidal.ts produces 4 samples (the computed at-rest sample plus the
three trailing repeats), not exactly one. -/
theorem claim_C5_counterexample :
    (trapClassProfile 0 50 500).length = 4 ∧ (4:ℕ) ≠ 1 := by
  constructor
  · rw [trapClassProfile_length,
      trapClassPositions_zero 50 500 (by norm_num) (by norm_num)]
    rfl
  · norm_num

/-- C5 (amended): a zero-distance move is not an error and degenerates to
at-rest output: the standalone generator function returns exactly one sample
`[0]`; the class-based generator returns that sample followed by its three
trailing repeats — 4 profile points, each with position 0, velocity 0 and
acceleration 0. -/
theorem claim_C5 (r a dt : ℝ) (hr : 0 < r) (ha : 0 < a) (hdt : 0 < dt) :
    trapezoidalProfile 0 r a dt = [0] ∧
    (trapClassProfile 0 r a).length = 4 ∧
    ∀ pt ∈ trapClassProfile 0 r a,
      pt.position = 0 ∧ pt.velocity = 0 ∧ pt.acceleration = 0 := by
  have hpos := trapClassPositions_zero r a hr ha
  refine ⟨trapezoidalProfile_zero r a dt hr ha hdt, ?_, ?_⟩
  · rw [trapClassProfile_length, hpos]
    rfl
  · intro pt hpt
    unfold trapClassProfile at hpt
    simp only [List.mem_map, List.mem_range] at hpt
    obtain ⟨i, hi, rfl⟩ := hpt
    rw [hpos, derivate_replicate_zero, derivate_replicate_zero]
    exact ⟨getD_replicate_zero _ _, getD_replicate_zero _ _, getD_replicate_zero _ _⟩

/-- Witness for C5 at `rate = 50`, `acceleration = 500`, `dt = 0.001`. -/
theorem claim_C5_witness :
    (0:ℝ) < 50 ∧ (0:ℝ) < 500 ∧ (0:ℝ) < 0.001 ∧
    (trapezoidalProfile 0 50 500 0.001 = [0] ∧
      (trapClassProfile 0 50 500).length = 4 ∧
      ∀ pt ∈ trapClassProfile 0 50 500,
        pt.position = 0 ∧ pt.velocity = 0 ∧ pt.acceleration = 0) :=
  ⟨by norm_num, by norm_num, by norm_num,
    claim_C5 50 500 0.001 (by norm_num) (by norm_num) (by norm_num)⟩

/-- Each stage is a low-pass of its input signal. -/
lemma stageState_eq (alpha v : ℝ) (j : ℕ) :
    stageState alpha v j = lpState alpha (stageIn alpha v j) := by
  cases j <;> rfl

/-- One time step of a stage, phrased through its input signal. -/
lemma stageState_succ_time (alpha v : ℝ) (j n : ℕ) :
    stageState alpha v j (n + 1) =
      stageState alpha v j n +
        (stageIn alpha v j n - stageState alpha v j n) * alpha := by
  rw [stageState_eq]
  rfl

/-- Every stage starts from the zero accumulator. -/
lemma stageState_zero_time (alpha v : ℝ) (j : ℕ) : stageState alpha v j 0 = 0 := by
  cases j <;> rfl

/-- The inner stage loop advances the whole accumulator vector one time step
and emits the value that leaves the last processed stage. -/
lemma stagesUpdate_stateVec (alpha v : ℝ) :
    ∀ (m j n : ℕ),
      stagesUpdate alpha (stageIn alpha v j n)
          ((List.range m).map (fun i => stageState alpha v (j + i) n)) =
        ((List.range m).map (fun i => stageState alpha v (j + i) (n + 1)),
          stageIn alpha v (j + m) n) := by
  intro m
  induction m with
  | zero =>
      intro j n
      simp [stagesUpdate]
  | succ m ih =>
      intro j n
      rw [List.range_succ_eq_map]
      simp only [List.map_cons, List.map_map]
      have harg : ∀ (t : ℕ),
          ((fun i => stageState alpha v (j + i) t) ∘ Nat.succ) =
            (fun i => stageState alpha v ((j + 1) + i) t) := by
        intro t
        funext i
        show stageState alpha v (j + (i + 1)) t = stageState alpha v ((j + 1) + i) t
        congr 1
        omega
      rw [harg, harg]
      show ((stageState alpha v (j + 0) n +
            (stageIn alpha v j n - stageState alpha v (j + 0) n) * alpha) ::
            (stagesUpdate alpha
              (stageState alpha v (j + 0) n +
                (stageIn alpha v j n - stageState alpha v (j + 0) n) * alpha)
              ((List.range m).map (fun i => stageState alpha v ((j + 1) + i) n))).1,
          (stagesUpdate alpha
              (stageState alpha v (j + 0) n +
                (stageIn alpha v j n - stageState alpha v (j + 0) n) * alpha)
              ((List.range m).map (fun i => stageState alpha v ((j + 1) + i) n))).2) = _
      have hj0 : j + 0 = j := Nat.add_zero j
      rw [hj0]
      have hs2 : stageState alpha v j n +
          (stageIn alpha v j n - stageState alpha v j n) * alpha =
          stageIn alpha v (j + 1) n := by
        rw [← stageState_succ_time]
        rfl
      rw [hs2, ih (j + 1) n]
      have hlast : (j + 1) + m = j + (m + 1) := by omega
      rw [hlast]
      have hhead : stageIn alpha v (j + 1) n = stageState alpha v j (n + 1) := rfl
      rw [hhead]

/-- The zero accumulator vector is the stage-state vector at time `0`. -/
lemma replicate_zero_stateVec (alpha v : ℝ) (order : ℕ) :
    List.replicate order (0:ℝ) =
      (List.range order).map (fun i => stageState alpha v i 0) := by
  apply List.ext_getElem
  · simp
  · intro i h1 h2
    simp only [List.getElem_replicate, List.getElem_map, List.getElem_range]
    exact (stageState_zero_time alpha v i).symm

/-- Running the code's filter on a constant input emits the cascade outputs
`stageIn alpha v order` in order. -/
lemma runFilter_const (alpha v : ℝ) (order : ℕ) :
    ∀ (m n : ℕ),
      runFilter alpha ((List.range order).map (fun i => stageState alpha v i n))
          (List.replicate m v) =
        (List.range m).map (fun k => stageIn alpha v order (n + k)) := by
  intro m
  induction m with
  | zero =>
      intro n
      simp [runFilter]
  | succ m ih =>
      intro n
      have hupd := stagesUpdate_stateVec alpha v order 0 n
      simp only [Nat.zero_add] at hupd
      have hin : stageIn alpha v 0 n = v := rfl
      rw [hin] at hupd
      rw [List.replicate_succ]
      show (stagesUpdate alpha v
            ((List.range order).map (fun i => stageState alpha v i n))).2 ::
          runFilter alpha
            (stagesUpdate alpha v
              ((List.range order).map (fun i => stageState alpha v i n))).1
            (List.replicate m v) = _
      rw [hupd, ih (n + 1), List.range_succ_eq_map]
      simp only [List.map_cons, List.map_map, Nat.add_zero]
      have hfun : ((fun k => stageIn alpha v order (n + k)) ∘ Nat.succ) =
          (fun k => stageIn alpha v order (n + 1 + k)) := by
        funext k
        simp only [Function.comp_apply]
        congr 1
        omega
      rw [hfun]

/-- A single low-pass stage tracks any input signal converging to `v`. -/
lemma lpState_tendsto (alpha v : ℝ) (h0 : 0 < alpha) (h1 : alpha < 1)
    {x : ℕ → ℝ} (hx : Filter.Tendsto x Filter.atTop (nhds v)) :
    Filter.Tendsto (lpState alpha x) Filter.atTop (nhds v) := by
  rw [Metric.tendsto_atTop] at hx ⊢
  intro ε hε
  obtain ⟨N, hN⟩ := hx (ε/2) (by linarith)
  have hq0 : (0:ℝ) ≤ 1 - alpha := by linarith
  have hq1 : 1 - alpha < 1 := by linarith
  set c : ℝ := |lpState alpha x N - v| with hc
  have key : ∀ j, |lpState alpha x (N + j) - v| ≤ (1 - alpha) ^ j * c + ε/2 := by
    intro j
    induction j with
    | zero =>
        simp only [Nat.add_zero, pow_zero, one_mul]
        linarith [le_refl c]
    | succ j ih =>
        have hrec : lpState alpha x (N + (j + 1)) - v =
            (1 - alpha) * (lpState alpha x (N + j) - v) + alpha * (x (N + j) - v) := by
          show lpState alpha x (N + j) +
              (x (N + j) - lpState alpha x (N + j)) * alpha - v = _
          ring
        have hd : |x (N + j) - v| ≤ ε/2 := by
          have := hN (N + j) (Nat.le_add_right N j)
          rw [Real.dist_eq] at this
          linarith
        calc |lpState alpha x (N + (j + 1)) - v|
            = |(1 - alpha) * (lpState alpha x (N + j) - v) + alpha * (x (N + j) - v)| := by
              rw [hrec]
          _ ≤ |(1 - alpha) * (lpState alpha x (N + j) - v)| + |alpha * (x (N + j) - v)| :=
              abs_add _ _
          _ = (1 - alpha) * |lpState alpha x (N + j) - v| + alpha * |x (N + j) - v| := by
              rw [abs_mul, abs_mul, abs_of_nonneg hq0, abs_of_pos h0]
          _ ≤ (1 - alpha) * ((1 - alpha) ^ j * c + ε/2) + alpha * (ε/2) := by
              have hml := mul_le_mul_of_nonneg_left ih hq0
              have hmr := mul_le_mul_of_nonneg_left hd h0.le
              linarith
          _ = (1 - alpha) ^ (j + 1) * c + ε/2 := by ring
  have hgeo : Filter.Tendsto (fun j => (1 - alpha) ^ j * c) Filter.atTop (nhds 0) := by
    have := tendsto_pow_atTop_nhds_zero_of_lt_one hq0 hq1
    simpa using this.mul_const c
  rw [Metric.tendsto_atTop] at hgeo
  obtain ⟨J, hJ⟩ := hgeo (ε/2) (by linarith)
  refine ⟨N + J, ?_⟩
  intro n hn
  have hnN : N ≤ n := le_trans (Nat.le_add_right N J) hn
  obtain ⟨j, rfl⟩ := Nat.exists_eq_add_of_le hnN
  have hjJ : J ≤ j := by omega
  have hsmall : (1 - alpha) ^ j * c < ε/2 := by
    have h2 := hJ j hjJ
    rw [Real.dist_eq, sub_zero] at h2
    calc (1 - alpha) ^ j * c ≤ |(1 - alpha) ^ j * c| := le_abs_self _
      _ < ε/2 := h2
  rw [Real.dist_eq]
  calc |lpState alpha x (N + j) - v| ≤ (1 - alpha) ^ j * c + ε/2 := key j
    _ < ε/2 + ε/2 := by linarith
    _ = ε := by ring

/-- Dropping the first sample preserves convergence. -/
lemma tendsto_shift {f : ℕ → ℝ} {v : ℝ}
    (h : Filter.Tendsto f Filter.atTop (nhds v)) :
    Filter.Tendsto (fun n => f (n + 1)) Filter.atTop (nhds v) :=
  (Filter.tendsto_add_atTop_iff_nat 1).mpr h

/-- Every cascade tap converges to the constant input value. -/
lemma stageIn_tendsto (alpha v : ℝ) (h0 : 0 < alpha) (h1 : alpha < 1) :
    ∀ j, Filter.Tendsto (stageIn alpha v j) Filter.atTop (nhds v) := by
  intro j
  induction j with
  | zero => exact tendsto_const_nhds
  | succ j ih =>
      have hs : Filter.Tendsto (lpState alpha (stageIn alpha v j))
          Filter.atTop (nhds v) := lpState_tendsto alpha v h0 h1 ih
      have hshift := tendsto_shift hs
      show Filter.Tendsto (fun n => stageState alpha v j (n + 1))
        Filter.atTop (nhds v)
      simpa only [stageState_eq] using hshift

/-- C7: for every constant input of value `v`, every order `≥ 1` and every
`smoothingTime > 0`, the cascade of src/profile.ts with gain
`alpha = 1 - exp(-dt*order/smoothingTime)`, started from the zero
accumulator state, emits exactly the tap sequence `stageIn alpha v order`,
and that output sequence converges to `v` as the sample index grows. -/
theorem claim_C7 (v ts s_time : ℝ) (order : ℕ) (hts : 0 < ts) (hst : 0 < s_time)
    (hord : 1 ≤ order) :
    Filter.Tendsto (stageIn (1 - Real.exp (-ts * order / s_time)) v order)
      Filter.atTop (nhds v) ∧
    ∀ m, runFilter (1 - Real.exp (-ts * order / s_time))
        (List.replicate order 0) (List.replicate m v) =
      (List.range m).map
        (fun k => stageIn (1 - Real.exp (-ts * order / s_time)) v order k) := by
  have hordR : (0:ℝ) < (order : ℝ) := by
    have : (1:ℝ) ≤ (order : ℝ) := by exact_mod_cast hord
    linarith
  have hneg : -ts * (order : ℝ) / s_time < 0 := by
    have hnum : 0 < ts * (order : ℝ) := by positivity
    have : -ts * (order : ℝ) = -(ts * (order : ℝ)) := by ring
    rw [this]
    exact div_neg_of_neg_of_pos (by linarith) hst
  have h0 : 0 < 1 - Real.exp (-ts * order / s_time) := by
    have := Real.exp_lt_one_iff.mpr hneg
    linarith
  have h1 : 1 - Real.exp (-ts * order / s_time) < 1 := by
    have := Real.exp_pos (-ts * (order : ℝ) / s_time)
    linarith
  refine ⟨stageIn_tendsto _ v h0 h1 order, ?_⟩
  intro m
  rw [replicate_zero_stateVec (1 - Real.exp (-ts * order / s_time)) v order]
  have := runFilter_const (1 - Real.exp (-ts * order / s_time)) v order m 0
  simpa only [Nat.zero_add] using this

/-- Witness for C7 at `v = 1`, `dt = 0.001`, `smoothingTime = 0.01`,
`order = 5`. -/
theorem claim_C7_witness :
    (0:ℝ) < 0.001 ∧ (0:ℝ) < 0.01 ∧ (1:ℕ) ≤ 5 ∧
    (Filter.Tendsto (stageIn (1 - Real.exp (-(0.001) * (5:ℕ) / 0.01)) 1 5)
        Filter.atTop (nhds 1) ∧
      ∀ m, runFilter (1 - Real.exp (-(0.001) * (5:ℕ) / 0.01))
          (List.replicate 5 0) (List.replicate m 1) =
        (List.range m).map
          (fun k => stageIn (1 - Real.exp (-(0.001) * (5:ℕ) / 0.01)) 1 5 k)) :=
  ⟨by norm_num, by norm_num, by norm_num,
    claim_C7 1 0.001 0.01 5 (by norm_num) (by norm_num) (by norm_num)⟩

/-- C4 (amended): for `distance = 10`, `rate = 50`, `acceleration = 500` the
timing computation gives `T1 = T3 = 0.1 s`, cruise `T2 = 0.1 s` and nominal
speed `50 mm/s` (accelerating covers `v²/(2a) = 2.5 mm` per ramp, leaving a
5 mm cruise; the peak velocity 50 mm/s is reached at `t = 0.1 s` and held
until `t = 0.2 s`). -/
theorem claim_C4 :
    (trapTimings 10 50 500).T1 = 0.1 ∧ (trapTimings 10 50 500).T2 = 0.1 ∧
    (trapTimings 10 50 500).T3 = 0.1 ∧ (trapTimings 10 50 500).nominal = 50 := by
  have hraw : trapT2raw 10 50 500 = 1/10 := by rw [trapT2raw_eq]; norm_num
  have hc : ¬ trapT2raw 10 50 500 < 0 := by rw [hraw]; norm_num
  have hnom : trapNominal 10 50 500 = 50 := by
    unfold trapNominal
    rw [if_neg hc]
  refine ⟨?_, ?_, ?_, hnom⟩
  · show (trapNominal 10 50 500 - 0) * (1 / 500) = 0.1
    rw [hnom]; norm_num
  · show (if trapT2raw 10 50 500 < 0 then 0 else trapT2raw 10 50 500) = 0.1
    rw [if_neg hc, hraw]; norm_num
  · show (trapNominal 10 50 500 - 0) * (1 / 500) = 0.1
    rw [hnom]; norm_num

end FtMotion
